import Mathlib

/-!
Shallow embedding of `kinematics-wasm/src/lib.rs` (Reachy Mini passive-joint
solver).  Machine `f64` arithmetic is modelled by exact real arithmetic `ℝ`;
`f64::atan2` is modelled by `Complex.arg`, `f64::asin` by `Real.arcsin`,
`f64::sqrt` by `Real.sqrt`.  Vectors are `Fin 3 → ℝ`, matrices are
`Matrix (Fin n) (Fin n) ℝ`, matching nalgebra's `Vector3<f64>` /
`Matrix3<f64>` / `Matrix4<f64>` row-major constructors.
-/

noncomputable section

open Real Matrix

/-- Model of `f64::atan2(y, x)`: the argument of the complex number `x + y·i`,
in `(-π, π]`, with `atan2 0 0 = 0` (matching IEEE atan2 on `(+0, +0)`). -/
def atan2 (y x : ℝ) : ℝ := Complex.arg (Complex.ofReal x + Complex.ofReal y * Complex.I)

/-- Model of nalgebra's `Vector3::dot`. -/
def dot3 (v w : Fin 3 → ℝ) : ℝ := v 0 * w 0 + v 1 * w 1 + v 2 * w 2

/-- Model of nalgebra's `Vector3::cross`. -/
def cross3 (v w : Fin 3 → ℝ) : Fin 3 → ℝ :=
  ![v 1 * w 2 - v 2 * w 1, v 2 * w 0 - v 0 * w 2, v 0 * w 1 - v 1 * w 0]

/-- Model of nalgebra's `Vector3::norm`: Euclidean length. -/
def vnorm3 (v : Fin 3 → ℝ) : ℝ := Real.sqrt (v 0 * v 0 + v 1 * v 1 + v 2 * v 2)

/-- Model of nalgebra's `Vector3::normalize`: componentwise division by the norm. -/
def normalize3 (v : Fin 3 → ℝ) : Fin 3 → ℝ := fun i => v i / vnorm3 v

/-- The skew-symmetric cross-product matrix `K` of a 3-vector, exactly as the
`Matrix3::new(0, -z, y, z, 0, -x, -y, x, 0)` literals in `align_vectors`. -/
def skew3 (a : Fin 3 → ℝ) : Matrix (Fin 3) (Fin 3) ℝ :=
  Matrix.of ![![0, -a 2, a 1], ![a 2, 0, -a 0], ![-a 1, a 0, 0]]

/-- Rust `rotation_from_euler_xyz` (lib.rs lines 144-165): rotation matrix from
Euler angles, entries written out literally as in the `Matrix3::new` call. -/
def rotation_from_euler_xyz (x y z : ℝ) : Matrix (Fin 3) (Fin 3) ℝ :=
  let cx := Real.cos x
  let sx := Real.sin x
  let cy := Real.cos y
  let sy := Real.sin y
  let cz := Real.cos z
  let sz := Real.sin z
  Matrix.of ![
    ![cy * cz, cz * sx * sy - cx * sz, cx * cz * sy + sx * sz],
    ![cy * sz, cx * cz + sx * sy * sz, cx * sy * sz - cz * sx],
    ![-sy, cy * sx, cx * cy]]

/-- Rust `euler_from_rotation_xyz` (lib.rs lines 168-187): Euler-angle
extraction with the gimbal-lock branch. -/
def euler_from_rotation_xyz (r : Matrix (Fin 3) (Fin 3) ℝ) : ℝ × ℝ × ℝ :=
  let sy := r 0 2
  if |sy| < 0.99999 then
    (atan2 (-r 1 2) (r 2 2), Real.arcsin sy, atan2 (-r 0 1) (r 0 0))
  else
    (atan2 (r 2 1) (r 1 1), if sy > 0 then π / 2 else -(π / 2), 0)

/-- Axis selection of the near-antiparallel branch of `align_vectors`
(lib.rs lines 204-209): cross with the x-axis, falling back to the y-axis when
that cross product is shorter than `0.001`, then normalize. -/
def flipAxis (v : Fin 3 → ℝ) : Fin 3 → ℝ :=
  let perp := cross3 ![1, 0, 0] v
  let perp2 := if vnorm3 perp < 0.001 then cross3 ![0, 1, 0] v else perp
  normalize3 perp2

/-- Rust `align_vectors` (lib.rs lines 191-227): rotation taking `f` to `t`. -/
def align_vectors (f t : Fin 3 → ℝ) : Matrix (Fin 3) (Fin 3) ℝ :=
  let from_n := normalize3 f
  let to_n := normalize3 t
  let d := dot3 from_n to_n
  if d > 0.99999 then 1
  else if d < -0.99999 then
    let k := skew3 (flipAxis from_n)
    1 + (2 : ℝ) • (k * k)
  else
    let cross := cross3 from_n to_n
    let s := vnorm3 cross
    let k := skew3 cross
    1 + k + ((1 - d) / (s * s)) • (k * k)

/-- Rust constant `HEAD_Z_OFFSET` (lib.rs line 35). -/
def HEAD_Z_OFFSET : ℝ := 0.177

/-- Rust constant `MOTOR_ARM_LENGTH` (lib.rs line 38). -/
def MOTOR_ARM_LENGTH : ℝ := 0.04

/-- Rust constant `T_HEAD_XL_330` (lib.rs lines 41-46): XL330 frame pose in the
head frame, row-major 4×4. -/
def T_HEAD_XL_330 : Matrix (Fin 4) (Fin 4) ℝ :=
  Matrix.of ![
    ![0.4822, -0.7068, -0.5177, 0.0206],
    ![0.1766, -0.5003, 0.8476, -0.0218],
    ![-0.8581, -0.5001, -0.1164, 0.0],
    ![0.0, 0.0, 0.0, 1.0]]

/-- Rust constant `PASSIVE_ORIENTATION_OFFSET` (lib.rs lines 49-57). -/
def PASSIVE_ORIENTATION_OFFSET : Fin 7 → Fin 3 → ℝ :=
  ![![-0.13754, -0.0882156, 2.10349],
    ![-π, 5.37396e-16, -π],
    ![0.373569, 0.0882156, -1.0381],
    ![-0.0860846, 0.0882156, 1.0381],
    ![0.123977, 0.0882156, -1.0381],
    ![3.0613, 0.0882156, 1.0381],
    ![π, 2.10388e-17, 4.15523e-17]]

/-- Rust constant `STEWART_ROD_DIR_IN_PASSIVE_FRAME` (lib.rs lines 60-67). -/
def STEWART_ROD_DIR_IN_PASSIVE_FRAME : Fin 6 → Fin 3 → ℝ :=
  ![![1.0, 0.0, 0.0],
    ![0.50606941, -0.85796418, -0.08826792],
    ![-1.0, 0.0, 0.0],
    ![-1.0, 0.0, 0.0],
    ![-1.0, 0.0, 0.0],
    ![-1.0, 0.0, 0.0]]

/-- Rust struct `Motor` (lib.rs lines 70-73). -/
structure Motor where
  branch_position : Fin 3 → ℝ
  t_world_motor : Matrix (Fin 4) (Fin 4) ℝ

/-- Rust `get_motors` (lib.rs lines 77-140): the six stewart motor records. -/
def get_motors : Fin 6 → Motor :=
  ![⟨![0.020648178337122566, 0.021763723638894568, 1.0345743467476964e-07],
     Matrix.of ![
       ![0.8660247915798899, 0.0000044901959360, -0.5000010603477224, 0.0269905781109381],
       ![-0.5000010603626028, 0.0000031810770988, -0.8660247915770969, 0.0267489144601032],
       ![-0.0000022980790772, 0.9999999999848599, 0.0000049999943606, 0.0766332540902687],
       ![0.0, 0.0, 0.0, 1.0]]⟩,
   ⟨![0.00852381571767217, 0.028763668526131346, 1.183437210727778e-07],
     Matrix.of ![
       ![-0.8660211183436273, -0.0000044902196459, -0.5000074225075980, 0.0096699703080478],
       ![0.5000074225224782, -0.0000031810634097, -0.8660211183408341, 0.0367490037948058],
       ![0.0000022980697230, -0.9999999999848597, 0.0000050000112432, 0.0766333000521544],
       ![0.0, 0.0, 0.0, 1.0]]⟩,
   ⟨![-0.029172011376922807, 0.0069999429399361995, 4.0290270064691214e-08],
     Matrix.of ![
       ![0.0000063267948970, -0.0000010196153098, 0.9999999999794665, -0.0366606982562266],
       ![0.9999999999799865, 0.0000000000135060, -0.0000063267948965, 0.0100001160862987],
       ![-0.0000000000070551, 0.9999999999994809, 0.0000010196153103, 0.0766334229944826],
       ![0.0, 0.0, 0.0, 1.0]]⟩,
   ⟨![-0.029172040355214434, -0.0069999960097160766, -3.1608172912367394e-08],
     Matrix.of ![
       ![-0.0000036732050704, 0.0000010196153103, 0.9999999999927344, -0.0366607717202358],
       ![-0.9999999999932538, -0.0000000000036776, -0.0000036732050700, -0.0099998653384376],
       ![-0.0000000000000677, -0.9999999999994809, 0.0000010196153103, 0.0766334229944823],
       ![0.0, 0.0, 0.0, 1.0]]⟩,
   ⟨![0.008523809101930114, -0.028763713010385224, -1.4344916837716326e-07],
     Matrix.of ![
       ![-0.8660284647694136, 0.0000044901728834, -0.4999946981608615, 0.0096697448698383],
       ![-0.4999946981757425, -0.0000031811099295, 0.8660284647666202, -0.0367490491228644],
       ![0.0000022980794298, 0.9999999999848597, 0.0000049999943840, 0.0766333000520353],
       ![0.0, 0.0, 0.0, 1.0]]⟩,
   ⟨![0.020648186722822436, -0.02176369606185343, -8.957920105689965e-08],
     Matrix.of ![
       ![0.8660247915798903, -0.0000044901962204, -0.5000010603477218, 0.0269903370664035],
       ![0.5000010603626028, 0.0000031810964559, 0.8660247915770964, -0.0267491384573748],
       ![-0.0000022980696448, -0.9999999999848597, 0.0000050000112666, 0.0766332540903862],
       ![0.0, 0.0, 0.0, 1.0]]⟩]

/-- The 3×3 rotation block of a 4×4 homogeneous transform
(Rust `fixed_view::<3, 3>(0, 0)`). -/
def rot3 (m : Matrix (Fin 4) (Fin 4) ℝ) : Matrix (Fin 3) (Fin 3) ℝ :=
  Matrix.of ![![m 0 0, m 0 1, m 0 2], ![m 1 0, m 1 1, m 1 2], ![m 2 0, m 2 1, m 2 2]]

/-- The translation column of a 4×4 homogeneous transform. -/
def trans3 (m : Matrix (Fin 4) (Fin 4) ℝ) : Fin 3 → ℝ :=
  ![m 0 3, m 1 3, m 2 3]

/-- Pose normalization of `calculate_passive_joints` (lib.rs lines 246-276):
build the row-major pose, add `HEAD_Z_OFFSET` to entry (2,3), premultiply by
the inverse body-yaw Z rotation. -/
def normalizedPose (jv : Fin 7 → ℝ) (pv : Fin 16 → ℝ) : Matrix (Fin 4) (Fin 4) ℝ :=
  let pose : Matrix (Fin 4) (Fin 4) ℝ := Matrix.of ![
    ![pv 0, pv 1, pv 2, pv 3],
    ![pv 4, pv 5, pv 6, pv 7],
    ![pv 8, pv 9, pv 10, pv 11 + HEAD_Z_OFFSET],
    ![pv 12, pv 13, pv 14, pv 15]]
  let cos_yaw := Real.cos (jv 0)
  let sin_yaw := Real.sin (jv 0)
  let r_z_inv : Matrix (Fin 4) (Fin 4) ℝ := Matrix.of ![
    ![cos_yaw, sin_yaw, 0, 0],
    ![-sin_yaw, cos_yaw, 0, 0],
    ![0, 0, 1, 0],
    ![0, 0, 0, 1]]
  r_z_inv * pose

/-- Rust lines 279-282: `passive_corrections`, the per-joint correction
rotations built from `PASSIVE_ORIENTATION_OFFSET`. -/
def passive_corrections (i : Fin 7) : Matrix (Fin 3) (Fin 3) ℝ :=
  rotation_from_euler_xyz (PASSIVE_ORIENTATION_OFFSET i 0)
    (PASSIVE_ORIENTATION_OFFSET i 1) (PASSIVE_ORIENTATION_OFFSET i 2)

/-- Result of one iteration of the leg loop: the three Euler outputs plus the
two matrices carried to the 7th-joint step when `i = 5`. -/
structure LegResult where
  euler : ℝ × ℝ × ℝ
  r_servo_branch : Matrix (Fin 3) (Fin 3) ℝ
  r_world_servo : Matrix (Fin 3) (Fin 3) ℝ

/-- One iteration of the stewart-leg loop of `calculate_passive_joints`
(lib.rs lines 292-375), for leg `i` with actuator angle `stewart_joint` and
the normalized pose. -/
def legSolve (stewart_joint : ℝ) (pose : Matrix (Fin 4) (Fin 4) ℝ) (i : Fin 6) : LegResult :=
  let motor := get_motors i
  let pose_rot := rot3 pose
  let pose_trans := trans3 pose
  let branch_pos_world := pose_rot.mulVec motor.branch_position + pose_trans
  let cos_z := Real.cos stewart_joint
  let sin_z := Real.sin stewart_joint
  let r_servo : Matrix (Fin 3) (Fin 3) ℝ :=
    Matrix.of ![![cos_z, -sin_z, 0], ![sin_z, cos_z, 0], ![0, 0, 1]]
  let t_world_motor_rot := rot3 motor.t_world_motor
  let t_world_motor_trans := trans3 motor.t_world_motor
  let servo_pos_local := r_servo.mulVec ![MOTOR_ARM_LENGTH, 0, 0]
  let p_world_servo_arm := t_world_motor_rot.mulVec servo_pos_local + t_world_motor_trans
  let r_world_servo := t_world_motor_rot * r_servo * passive_corrections i.castSucc
  let vec_servo_to_branch := branch_pos_world - p_world_servo_arm
  let vec_in_servo := r_world_servo.transpose.mulVec vec_servo_to_branch
  let rod_dir := STEWART_ROD_DIR_IN_PASSIVE_FRAME i
  let norm_vec := vnorm3 vec_in_servo
  let straight_line_dir := fun j => vec_in_servo j / norm_vec
  let r_servo_branch := align_vectors rod_dir straight_line_dir
  ⟨euler_from_rotation_xyz r_servo_branch, r_servo_branch, r_world_servo⟩

/-- The 7th passive joint (XL330) step of `calculate_passive_joints`
(lib.rs lines 377-402), fed by leg index 5's carried matrices. -/
def seventhEuler (jv : Fin 7 → ℝ) (pv : Fin 16 → ℝ) : ℝ × ℝ × ℝ :=
  let pose := normalizedPose jv pv
  let l5 := legSolve (jv 6) pose 5
  let r_head_xl330 := rot3 pose * rot3 T_HEAD_XL_330
  let r_rod_current := l5.r_world_servo * l5.r_servo_branch * passive_corrections 6
  euler_from_rotation_xyz (r_rod_current.transpose * r_head_xl330)

/-- The seven joint scalars read by `calculate_passive_joints`
(guarded accesses `head_joints[0..=6]`). -/
def jvals (l : List ℝ) : Fin 7 → ℝ := fun i => l.getD i 0

/-- The sixteen pose scalars read by `calculate_passive_joints`
(guarded accesses `head_pose[0..=15]`). -/
def pvals (l : List ℝ) : Fin 16 → ℝ := fun i => l.getD i 0

/-- The non-fallback body of `calculate_passive_joints` (lib.rs lines 243-404):
the 21 outputs, six leg triples followed by the 7th-joint triple. -/
def passiveCore (jv : Fin 7 → ℝ) (pv : Fin 16 → ℝ) : List ℝ :=
  let pose := normalizedPose jv pv
  let leg := fun i : Fin 6 => legSolve (jv i.succ) pose i
  let e := fun i : Fin 6 => (leg i).euler
  let s := seventhEuler jv pv
  [(e 0).1, (e 0).2.1, (e 0).2.2,
   (e 1).1, (e 1).2.1, (e 1).2.2,
   (e 2).1, (e 2).2.1, (e 2).2.2,
   (e 3).1, (e 3).2.1, (e 3).2.2,
   (e 4).1, (e 4).2.1, (e 4).2.2,
   (e 5).1, (e 5).2.1, (e 5).2.2,
   s.1, s.2.1, s.2.2]

/-- Rust `calculate_passive_joints` (lib.rs lines 238-405). -/
def calculate_passive_joints (head_joints head_pose : List ℝ) : List ℝ :=
  if head_joints.length < 7 ∨ head_pose.length < 16 then List.replicate 21 0
  else passiveCore (jvals head_joints) (pvals head_pose)

/-- Reading an index below the cut of a `take` is reading the original list. -/
theorem getD_take_of_lt (l : List ℝ) {n i : ℕ} (h : i < n) :
    (l.take n).getD i 0 = l.getD i 0 := by
  simp [List.getD_eq_getElem?_getD, List.getElem?_take_of_lt h]

/-- Claim C1: with fewer than 7 joints or fewer than 16 pose entries,
`calculate_passive_joints` is exactly the all-zero 21-vector — the guard
returns before any kinematics is computed. -/
theorem calculate_passive_joints_fallback (j p : List ℝ)
    (h : j.length < 7 ∨ p.length < 16) :
    calculate_passive_joints j p = List.replicate 21 0 := by
  unfold calculate_passive_joints
  exact if_pos h

/-- Concrete instance of the fallback theorem at empty inputs. -/
theorem calculate_passive_joints_fallback_ev :
    (([] : List ℝ).length < 7 ∨ ([] : List ℝ).length < 16) ∧
      calculate_passive_joints [] [] = List.replicate 21 0 :=
  ⟨Or.inl (by simp), calculate_passive_joints_fallback [] [] (Or.inl (by simp))⟩

/-- Claim C5: `euler_from_rotation_xyz` returns exactly the claimed atan2/asin
triple in the regular branch, and pins the z component to 0 in the
gimbal-lock branch. -/
theorem euler_from_rotation_xyz_spec (r : Matrix (Fin 3) (Fin 3) ℝ) :
    euler_from_rotation_xyz r =
      if |r 0 2| < 0.99999 then
        (atan2 (-r 1 2) (r 2 2), Real.arcsin (r 0 2), atan2 (-r 0 1) (r 0 0))
      else
        (atan2 (r 2 1) (r 1 1), if r 0 2 > 0 then π / 2 else -(π / 2), 0) := rfl

/-- Claim C8: `calculate_passive_joints` is a pure function of its two
arguments — identical inputs give identical outputs. -/
theorem calculate_passive_joints_deterministic (j₁ p₁ j₂ p₂ : List ℝ)
    (hj : j₁ = j₂) (hp : p₁ = p₂) :
    calculate_passive_joints j₁ p₁ = calculate_passive_joints j₂ p₂ := by
  rw [hj, hp]

/-- Concrete instance of the determinism theorem. -/
theorem calculate_passive_joints_deterministic_ev :
    (([] : List ℝ) = []) ∧
      calculate_passive_joints [] [] = calculate_passive_joints [] [] :=
  ⟨rfl, calculate_passive_joints_deterministic [] [] [] [] rfl rfl⟩

/-- Claim C10: on inputs of length at least 7 and 16 the result only depends
on the 7- and 16-element prefixes; over-length inputs are accepted. -/
theorem calculate_passive_joints_take (j p : List ℝ)
    (hj : 7 ≤ j.length) (hp : 16 ≤ p.length) :
    calculate_passive_joints j p =
      calculate_passive_joints (j.take 7) (p.take 16) := by
  have hjt : jvals (j.take 7) = jvals j :=
    funext fun i => getD_take_of_lt j i.isLt
  have hpt : pvals (p.take 16) = pvals p :=
    funext fun i => getD_take_of_lt p i.isLt
  have g : ¬(j.length < 7 ∨ p.length < 16) := by omega
  have g' : ¬((j.take 7).length < 7 ∨ (p.take 16).length < 16) := by
    simp only [List.length_take]
    omega
  unfold calculate_passive_joints
  rw [if_neg g, if_neg g', hjt, hpt]

/-- Concrete instance of the prefix theorem at over-length all-zero inputs. -/
theorem calculate_passive_joints_take_ev :
    7 ≤ (List.replicate 8 (0 : ℝ)).length ∧
      16 ≤ (List.replicate 17 (0 : ℝ)).length ∧
      calculate_passive_joints (List.replicate 8 0) (List.replicate 17 0) =
        calculate_passive_joints ((List.replicate 8 (0 : ℝ)).take 7)
          ((List.replicate 17 (0 : ℝ)).take 16) :=
  ⟨by simp, by simp,
    calculate_passive_joints_take _ _ (by simp) (by simp)⟩

/-- Claim C6: on valid-length input the last three outputs are the Euler
extraction of `Cᵀ · D`, with `D` the normalized pose rotation times the
`T_HEAD_XL_330` rotation and `C` the leg-index-5 corrected servo orientation
times its alignment rotation times the 7th correction rotation, the leg-5
data being those of the last leg iteration. -/
theorem calculate_passive_joints_seventh (j p : List ℝ)
    (hj : 7 ≤ j.length) (hp : 16 ≤ p.length) :
    (calculate_passive_joints j p).drop 18 =
      (let pose := normalizedPose (jvals j) (pvals p)
       let l5 := legSolve (jvals j 6) pose 5
       let d := rot3 pose * rot3 T_HEAD_XL_330
       let c := l5.r_world_servo * l5.r_servo_branch * passive_corrections 6
       let e := euler_from_rotation_xyz (c.transpose * d)
       [e.1, e.2.1, e.2.2]) := by
  have g : ¬(j.length < 7 ∨ p.length < 16) := by omega
  unfold calculate_passive_joints
  rw [if_neg g]
  rfl

/-- Concrete instance of the seventh-joint theorem at all-zero inputs of
exactly the valid lengths. -/
theorem calculate_passive_joints_seventh_ev :
    7 ≤ (List.replicate 7 (0 : ℝ)).length ∧
      16 ≤ (List.replicate 16 (0 : ℝ)).length ∧
      (calculate_passive_joints (List.replicate 7 0) (List.replicate 16 0)).drop 18 =
        (let pose := normalizedPose (jvals (List.replicate 7 0)) (pvals (List.replicate 16 0))
         let l5 := legSolve (jvals (List.replicate 7 0) 6) pose 5
         let d := rot3 pose * rot3 T_HEAD_XL_330
         let c := l5.r_world_servo * l5.r_servo_branch * passive_corrections 6
         let e := euler_from_rotation_xyz (c.transpose * d)
         [e.1, e.2.1, e.2.2]) :=
  ⟨by simp, by simp,
    calculate_passive_joints_seventh _ _ (by simp) (by simp)⟩

/-- Standard rotation about the x-axis, for stating the decomposition claims. -/
def rotX (a : ℝ) : Matrix (Fin 3) (Fin 3) ℝ :=
  Matrix.of ![![1, 0, 0], ![0, Real.cos a, -Real.sin a], ![0, Real.sin a, Real.cos a]]

/-- Standard rotation about the y-axis. -/
def rotY (a : ℝ) : Matrix (Fin 3) (Fin 3) ℝ :=
  Matrix.of ![![Real.cos a, 0, Real.sin a], ![0, 1, 0], ![-Real.sin a, 0, Real.cos a]]

/-- Standard rotation about the z-axis. -/
def rotZ (a : ℝ) : Matrix (Fin 3) (Fin 3) ℝ :=
  Matrix.of ![![Real.cos a, -Real.sin a, 0], ![Real.sin a, Real.cos a, 0], ![0, 0, 1]]

/-- Claim C4: `rotation_from_euler_xyz x y z` is exactly the product
`Rz(z) · Ry(y) · Rx(x)`; its literal entries are the ones listed in the
definition above. -/
theorem rotation_from_euler_xyz_eq_prod (x y z : ℝ) :
    rotation_from_euler_xyz x y z = rotZ z * rotY y * rotX x := by
  ext i j
  fin_cases i <;> fin_cases j <;>
    simp [rotation_from_euler_xyz, rotX, rotY, rotZ, Matrix.mul_apply,
      Fin.sum_univ_three, Matrix.vecHead, Matrix.vecTail] <;> ring

/-- First component of a cross product. -/
theorem cross3_c0 (v w : Fin 3 → ℝ) : cross3 v w 0 = v 1 * w 2 - v 2 * w 1 := rfl

/-- Second component of a cross product. -/
theorem cross3_c1 (v w : Fin 3 → ℝ) : cross3 v w 1 = v 2 * w 0 - v 0 * w 2 := rfl

/-- Third component of a cross product. -/
theorem cross3_c2 (v w : Fin 3 → ℝ) : cross3 v w 2 = v 0 * w 1 - v 1 * w 0 := rfl

/-- Claim C9: for unit vectors whose dot product lies in
`[-0.99999, 0.99999]` — the general Rodrigues branch of `align_vectors` — the
divisor `s·s` equals `1 - dot²` and is strictly positive, so the branch never
divides by zero. -/
theorem align_general_divisor (v w : Fin 3 → ℝ)
    (hv : vnorm3 v = 1) (hw : vnorm3 w = 1) (hd : |dot3 v w| ≤ 0.99999) :
    vnorm3 (cross3 v w) * vnorm3 (cross3 v w) = 1 - dot3 v w * dot3 v w ∧
      0 < vnorm3 (cross3 v w) * vnorm3 (cross3 v w) := by
  have hv2 : v 0 * v 0 + v 1 * v 1 + v 2 * v 2 = 1 := by
    unfold vnorm3 at hv
    exact Real.sqrt_eq_one.mp hv
  have hw2 : w 0 * w 0 + w 1 * w 1 + w 2 * w 2 = 1 := by
    unfold vnorm3 at hw
    exact Real.sqrt_eq_one.mp hw
  have h0 : 0 ≤ cross3 v w 0 * cross3 v w 0 + cross3 v w 1 * cross3 v w 1 +
      cross3 v w 2 * cross3 v w 2 := by
    have a0 := mul_self_nonneg (cross3 v w 0)
    have a1 := mul_self_nonneg (cross3 v w 1)
    have a2 := mul_self_nonneg (cross3 v w 2)
    linarith
  have hmain : vnorm3 (cross3 v w) * vnorm3 (cross3 v w) =
      1 - dot3 v w * dot3 v w := by
    unfold vnorm3
    rw [Real.mul_self_sqrt h0]
    simp only [cross3_c0, cross3_c1, cross3_c2]
    unfold dot3
    linear_combination (w 0 * w 0 + w 1 * w 1 + w 2 * w 2) * hv2 + hw2
  refine ⟨hmain, ?_⟩
  rw [hmain]
  obtain ⟨hd1, hd2⟩ := abs_le.mp hd
  nlinarith

/-- Concrete instance of the divisor theorem at two orthogonal unit vectors. -/
theorem align_general_divisor_ev :
    vnorm3 ![(1 : ℝ), 0, 0] = 1 ∧ vnorm3 ![(0 : ℝ), 1, 0] = 1 ∧
      |dot3 ![(1 : ℝ), 0, 0] ![(0 : ℝ), 1, 0]| ≤ 0.99999 ∧
      (vnorm3 (cross3 ![(1 : ℝ), 0, 0] ![(0 : ℝ), 1, 0]) *
          vnorm3 (cross3 ![(1 : ℝ), 0, 0] ![(0 : ℝ), 1, 0]) =
        1 - dot3 ![(1 : ℝ), 0, 0] ![(0 : ℝ), 1, 0] *
          dot3 ![(1 : ℝ), 0, 0] ![(0 : ℝ), 1, 0] ∧
        0 < vnorm3 (cross3 ![(1 : ℝ), 0, 0] ![(0 : ℝ), 1, 0]) *
          vnorm3 (cross3 ![(1 : ℝ), 0, 0] ![(0 : ℝ), 1, 0])) := by
  have h1 : vnorm3 ![(1 : ℝ), 0, 0] = 1 := by norm_num [vnorm3]
  have h2 : vnorm3 ![(0 : ℝ), 1, 0] = 1 := by norm_num [vnorm3]
  have h3 : |dot3 ![(1 : ℝ), 0, 0] ![(0 : ℝ), 1, 0]| ≤ 0.99999 := by
    norm_num [dot3]
  exact ⟨h1, h2, h3, align_general_divisor _ _ h1 h2 h3⟩

/-- Normalizing a vector of length one leaves it unchanged. -/
theorem normalize3_of_unit {v : Fin 3 → ℝ} (hv : vnorm3 v = 1) :
    normalize3 v = v :=
  funext fun i => by simp [normalize3, hv]

/-- Shared evaluation of the near-antiparallel branch of `align_vectors`:
for unit inputs with dot below `-0.99999` the result is `I + 2K²` for the
skew matrix `K` of the selected flip axis. -/
theorem align_antiparallel_aux (f t : Fin 3 → ℝ)
    (hf : vnorm3 f = 1) (ht : vnorm3 t = 1) (hd : dot3 f t < -0.99999) :
    align_vectors f t =
      1 + (2 : ℝ) • (skew3 (flipAxis f) * skew3 (flipAxis f)) := by
  simp only [align_vectors]
  rw [normalize3_of_unit hf, normalize3_of_unit ht]
  rw [if_neg (by linarith : ¬dot3 f t > 0.99999), if_pos hd]

/-- Claim C3 (amended): in the near-antiparallel branch, `align_vectors`
returns `I + 2K²` (not `I + 2K²K`), `K` being the skew matrix of the
normalized axis chosen by the x-axis/y-axis cross-product fallback. -/
theorem align_antiparallel (f t : Fin 3 → ℝ)
    (hf : vnorm3 f = 1) (ht : vnorm3 t = 1) (hd : dot3 f t < -0.99999) :
    align_vectors f t =
      1 + (2 : ℝ) • (skew3 (flipAxis f) * skew3 (flipAxis f)) :=
  align_antiparallel_aux f t hf ht hd

/-- Concrete instance of the antiparallel theorem at `±e₃`. -/
theorem align_antiparallel_ev :
    vnorm3 ![(0 : ℝ), 0, 1] = 1 ∧ vnorm3 ![(0 : ℝ), 0, -1] = 1 ∧
      dot3 ![(0 : ℝ), 0, 1] ![(0 : ℝ), 0, -1] < -0.99999 ∧
      align_vectors ![(0 : ℝ), 0, 1] ![(0 : ℝ), 0, -1] =
        1 + (2 : ℝ) • (skew3 (flipAxis ![(0 : ℝ), 0, 1]) *
          skew3 (flipAxis ![(0 : ℝ), 0, 1])) := by
  have h1 : vnorm3 ![(0 : ℝ), 0, 1] = 1 := by norm_num [vnorm3]
  have h2 : vnorm3 ![(0 : ℝ), 0, -1] = 1 := by norm_num [vnorm3]
  have h3 : dot3 ![(0 : ℝ), 0, 1] ![(0 : ℝ), 0, -1] < -0.99999 := by
    norm_num [dot3]
  exact ⟨h1, h2, h3, align_antiparallel _ _ h1 h2 h3⟩

/-- Claim C3 counterexample: at `from = e₃`, `to = -e₃` — unit vectors with
dot product `-1` — the value of `align_vectors` differs from the literal
`I + 2K²K` of the claim (they differ at entry (0,2): `0` versus `2`). -/
theorem align_antiparallel_cex :
    vnorm3 ![(0 : ℝ), 0, 1] = 1 ∧ vnorm3 ![(0 : ℝ), 0, -1] = 1 ∧
      dot3 ![(0 : ℝ), 0, 1] ![(0 : ℝ), 0, -1] < -0.99999 ∧
      align_vectors ![(0 : ℝ), 0, 1] ![(0 : ℝ), 0, -1] ≠
        1 + (2 : ℝ) • (skew3 (flipAxis ![(0 : ℝ), 0, 1]) *
          skew3 (flipAxis ![(0 : ℝ), 0, 1]) * skew3 (flipAxis ![(0 : ℝ), 0, 1])) := by
  have h1 : vnorm3 ![(0 : ℝ), 0, 1] = 1 := by norm_num [vnorm3]
  have h2 : vnorm3 ![(0 : ℝ), 0, -1] = 1 := by norm_num [vnorm3]
  have h3 : dot3 ![(0 : ℝ), 0, 1] ![(0 : ℝ), 0, -1] < -0.99999 := by
    norm_num [dot3]
  have haxis : flipAxis ![(0 : ℝ), 0, 1] = ![(0 : ℝ), -1, 0] := by
    have hperp : cross3 ![(1 : ℝ), 0, 0] ![(0 : ℝ), 0, 1] = ![(0 : ℝ), -1, 0] := by
      funext i; fin_cases i <;> norm_num [cross3]
    have hn : vnorm3 ![(0 : ℝ), -1, 0] = 1 := by norm_num [vnorm3]
    simp only [flipAxis]
    rw [hperp, hn, if_neg (by norm_num)]
    exact normalize3_of_unit hn
  refine ⟨h1, h2, h3, ?_⟩
  rw [align_antiparallel_aux _ _ h1 h2 h3, haxis]
  intro hEq
  have h02 : (1 + (2 : ℝ) • (skew3 ![(0 : ℝ), -1, 0] * skew3 ![(0 : ℝ), -1, 0])) 0 2 =
      (1 + (2 : ℝ) • (skew3 ![(0 : ℝ), -1, 0] * skew3 ![(0 : ℝ), -1, 0] *
        skew3 ![(0 : ℝ), -1, 0])) 0 2 := by rw [hEq]
  norm_num [Matrix.add_apply, Matrix.smul_apply, Matrix.one_apply,
    Matrix.mul_apply, Fin.sum_univ_three, skew3] at h02

/-- Claim C2 counterexample: at `(x, y, z) = (π/2, 0, π/2)` — where
`|sin y| = 0 < 0.99` — the extraction applied to the constructed matrix has
middle (y) component `π/2`, at distance more than 1 from the original `y = 0`,
so the round trip fails beyond any tolerance. -/
theorem euler_roundtrip_cex :
    |Real.sin 0| < 0.99 ∧
      (euler_from_rotation_xyz (rotation_from_euler_xyz (π / 2) 0 (π / 2))).2.1 = π / 2 ∧
      (1 : ℝ) ≤ |π / 2 - 0| := by
  have h02 : rotation_from_euler_xyz (π / 2) 0 (π / 2) 0 2 = 1 := by
    simp [rotation_from_euler_xyz]
  have hval : euler_from_rotation_xyz (rotation_from_euler_xyz (π / 2) 0 (π / 2)) =
      (atan2 (rotation_from_euler_xyz (π / 2) 0 (π / 2) 2 1)
        (rotation_from_euler_xyz (π / 2) 0 (π / 2) 1 1), π / 2, 0) := by
    simp only [euler_from_rotation_xyz]
    rw [h02, if_neg (by norm_num), if_pos (by norm_num)]
  refine ⟨by norm_num, by rw [hval], ?_⟩
  rw [sub_zero, abs_of_pos (by positivity)]
  linarith [Real.pi_gt_three]

/-- Angles recovered by `atan2` from a positively scaled cosine/sine pair. -/
theorem atan2_cos_sin_scaled (a : ℝ) (ha : a ∈ Set.Ioc (-π) π)
    {r : ℝ} (hr : 0 < r) :
    atan2 (Real.sin a * r) (Real.cos a * r) = a := by
  unfold atan2
  have hfac : (Complex.ofReal (Real.cos a * r) +
      Complex.ofReal (Real.sin a * r) * Complex.I) =
      (Complex.ofReal r) * (Real.cos a + Real.sin a * Complex.I) := by
    push_cast
    ring
  rw [hfac, Complex.arg_real_mul _ hr, Complex.ofReal_cos, Complex.ofReal_sin,
    Complex.arg_cos_add_sin_mul_I ha]

/-- Claim C2 (amended): the extraction inverts the reversed composition
`Rx(x)·Ry(y)·Rz(z)` exactly, for `x, z ∈ (-π, π]`, `|y| ≤ π/2` and
`|sin y| < 0.99`. -/
theorem euler_roundtrip (x y z : ℝ)
    (hx : x ∈ Set.Ioc (-π) π) (hz : z ∈ Set.Ioc (-π) π)
    (hy : |y| ≤ π / 2) (hsy : |Real.sin y| < 0.99) :
    euler_from_rotation_xyz (rotX x * rotY y * rotZ z) = (x, y, z) := by
  obtain ⟨hy1, hy2⟩ := abs_le.mp hy
  have hcy : 0 < Real.cos y := by
    have hnn := Real.cos_nonneg_of_mem_Icc (Set.mem_Icc.mpr ⟨hy1, hy2⟩)
    have hpyth := Real.sin_sq_add_cos_sq y
    have habs : Real.sin y ^ 2 = |Real.sin y| ^ 2 := (sq_abs _).symm
    nlinarith [abs_nonneg (Real.sin y)]
  have hm02 : (rotX x * rotY y * rotZ z) 0 2 = Real.sin y := by
    simp [rotX, rotY, rotZ, Matrix.mul_apply, Fin.sum_univ_three,
      Matrix.vecHead, Matrix.vecTail]
  have hm12 : (rotX x * rotY y * rotZ z) 1 2 = -(Real.sin x * Real.cos y) := by
    simp [rotX, rotY, rotZ, Matrix.mul_apply, Fin.sum_univ_three,
      Matrix.vecHead, Matrix.vecTail]
    try ring
  have hm22 : (rotX x * rotY y * rotZ z) 2 2 = Real.cos x * Real.cos y := by
    simp [rotX, rotY, rotZ, Matrix.mul_apply, Fin.sum_univ_three,
      Matrix.vecHead, Matrix.vecTail]
    try ring
  have hm01 : (rotX x * rotY y * rotZ z) 0 1 = -(Real.sin z * Real.cos y) := by
    simp [rotX, rotY, rotZ, Matrix.mul_apply, Fin.sum_univ_three,
      Matrix.vecHead, Matrix.vecTail]
    try ring
  have hm00 : (rotX x * rotY y * rotZ z) 0 0 = Real.cos z * Real.cos y := by
    simp [rotX, rotY, rotZ, Matrix.mul_apply, Fin.sum_univ_three,
      Matrix.vecHead, Matrix.vecTail]
    try ring
  simp only [euler_from_rotation_xyz]
  rw [hm02, hm12, hm22, hm01, hm00]
  rw [if_pos (by rw [abs_lt] at hsy ⊢; constructor <;> [linarith; linarith])]
  simp only [Prod.mk.injEq]
  refine ⟨?_, ?_, ?_⟩
  · rw [neg_neg]
    exact atan2_cos_sin_scaled x hx hcy
  · exact Real.arcsin_sin hy1 hy2
  · rw [neg_neg]
    exact atan2_cos_sin_scaled z hz hcy

/-- Concrete instance of the amended round-trip theorem at the origin. -/
theorem euler_roundtrip_ev :
    (0 : ℝ) ∈ Set.Ioc (-π) π ∧ |(0 : ℝ)| ≤ π / 2 ∧ |Real.sin 0| < 0.99 ∧
      euler_from_rotation_xyz (rotX 0 * rotY 0 * rotZ 0) = (0, 0, 0) := by
  have hx : (0 : ℝ) ∈ Set.Ioc (-π) π :=
    ⟨by linarith [Real.pi_pos], le_of_lt Real.pi_pos⟩
  have hy : |(0 : ℝ)| ≤ π / 2 := by
    rw [abs_zero]
    linarith [Real.pi_pos]
  have hs : |Real.sin 0| < 0.99 := by norm_num
  exact ⟨hx, hy, hs, euler_roundtrip 0 0 0 hx hx hy hs⟩

end
